import Mathlib

/-!
Verification of the Environment Bootstrap & Self-Update Orchestrator of the
`linkclaw` repository, as a shallow embedding in Lean 4.

Two source files carry the logic under scrutiny:

* `tool/lnode.js` — the bootstrap script: runtime version gate, install
  strategy chain (`installLatestNode`), registry mirror configurer
  (`configureNpmMirror`) and the `main` orchestration.
* `App.tsx` — the update orchestrator of the desktop app: `checkUpdate`,
  `handleUpdate` (backup then apply inside `try`/`catch`/`finally`) and the
  update button guarded by `disabled={updating}`.

External effects (invocations of `execSync`, Tauri `invoke`, timers) are
modelled by explicit environments of oracles, and the observable command
invocations are collected into traces.
-/

namespace Lnode

/-! ## JS `parseInt(s, 10)` semantics

`parseInt` skips leading whitespace, accepts one optional sign, then reads
the longest prefix of decimal digits; with no digit it yields `NaN`, which we
model as `none`.  (Trailing garbage is ignored by `parseInt`, matching the
`takeWhile` structure below.) -/

def isJsSpace (c : Char) : Bool :=
  c = ' ' ∨ c = '\t' ∨ c = '\n' ∨ c = '\r'

def digitsVal (cs : List Char) : Option Nat :=
  let ds := cs.takeWhile Char.isDigit
  if ds.isEmpty then none
  else some (ds.foldl (fun acc c => acc * 10 + (c.toNat - 48)) 0)

def parseIntChars (cs : List Char) : Option Int :=
  match cs.dropWhile isJsSpace with
  | [] => none
  | c :: rest =>
    if c = '-' then (digitsVal rest).map (fun n => -(n : Int))
    else if c = '+' then (digitsVal rest).map Int.ofNat
    else (digitsVal (c :: rest)).map Int.ofNat

/-- `parseInt(v.substring(1).split('.')[0], 10)` from `main` of `lnode.js`:
drop the leading character (the `v` of `process.version`), keep the part
before the first dot, parse it as a decimal integer.  `none` models `NaN`. -/
def majorOf (v : String) : Option Int :=
  parseIntChars ((v.toList.drop 1).takeWhile (fun c => c ≠ '.'))

/-- Configuration object of `lnode.js` (`CONFIG`). -/
structure Config where
  minNodeVersion : Int
  npmRegistry : String

def CONFIG : Config :=
  { minNodeVersion := 22
    npmRegistry := "https://registry.npmmirror.com" }

/-- The test `majorVersion < CONFIG.minNodeVersion` from `main`.  In JS a
`NaN` comparison is `false`, hence the `none ↦ false` branch. -/
def majorLtMin (v : String) (minV : Int) : Bool :=
  match majorOf v with
  | none => false
  | some m => decide (m < minV)

/-- The runtime version gate: the installed version `v` "satisfies" the
minimum exactly when `main` takes the `else` branch (no install). -/
def versionGateSatisfies (v : String) (minV : Int) : Bool :=
  !(majorLtMin v minV)

/-! ## The spec's semantic-version view

The spec reads the installed version as a `major.minor.patch` tuple.  The
host version string is `v` followed by three dot-separated decimal numerals;
`parseSemVer` extracts the tuple (it is the spec-side definition used to
state the refinement claims about the gate). -/

def decNat (cs : List Char) : Option Nat :=
  if cs ≠ [] ∧ cs.all Char.isDigit then
    some (cs.foldl (fun acc c => acc * 10 + (c.toNat - 48)) 0)
  else none

/-- Three dot-separated decimal numerals. -/
def parseTriple (rest : List Char) : Option (Nat × Nat × Nat) :=
  match decNat (rest.takeWhile (fun c => c ≠ '.')) with
  | none => none
  | some x =>
    match rest.dropWhile (fun c => c ≠ '.') with
    | '.' :: r1 =>
      match decNat (r1.takeWhile (fun c => c ≠ '.')) with
      | none => none
      | some y =>
        match r1.dropWhile (fun c => c ≠ '.') with
        | '.' :: r2 => (decNat r2).map (fun z => (x, y, z))
        | _ => none
    | _ => none

def parseSemVer (s : String) : Option (Nat × Nat × Nat) :=
  match s.toList with
  | 'v' :: rest => parseTriple rest
  | _ => none

/-- Lexicographic `≥` on `(major, minor, patch)` tuples, each component
compared numerically. -/
def lexGe (x y : Nat × Nat × Nat) : Prop :=
  x.1 > y.1 ∨ (x.1 = y.1 ∧ (x.2.1 > y.2.1 ∨ (x.2.1 = y.2.1 ∧ x.2.2 ≥ y.2.2)))

instance (x y : Nat × Nat × Nat) : Decidable (lexGe x y) := by
  unfold lexGe; infer_instance

/-! ## The install strategy chain (`findLocalInstaller`, `installLatestNode`)
and the bootstrap orchestration (`main`)

External command invocations are recorded as events; the environment says
which commands would succeed (an `execSync` failure throws and is caught). -/

inductive Platform
  | win32
  | darwin
  | linux
deriving DecidableEq, Repr

/-- `f.includes('x64')`: some position of `cs` starts the substring `x64`. -/
def hasX64 : List Char → Bool
  | [] => false
  | c :: rest => List.isPrefixOf ['x', '6', '4'] (c :: rest) || hasX64 rest

/-- `f.startsWith(pat)` on the character lists of the strings. -/
def startsWithL (pat f : String) : Bool :=
  List.isPrefixOf pat.toList f.toList

/-- `f.endsWith(pat)` on the character lists of the strings. -/
def endsWithL (pat f : String) : Bool :=
  List.isPrefixOf pat.toList.reverse f.toList.reverse

/-- `findLocalInstaller` of `lnode.js`: scan the tool directory listing for a
platform-specific installer artifact; `none` for any other platform. -/
def findLocalInstaller (platform : Platform) (files : List String) : Option String :=
  match platform with
  | .win32 =>
    (files.find? fun f =>
        startsWithL "node-v" f && endsWithL ".msi" f && hasX64 f.toList).orElse
      (fun _ => files.find? fun f => startsWithL "node" f && endsWithL ".msi" f)
  | .darwin => files.find? fun f => startsWithL "node" f && endsWithL ".pkg" f
  | .linux => none

/-- Observable events of one bootstrap run. -/
inductive Ev
  | localAttempt
  | localSuccess
  | pmAttempt
  | pmSuccess
  | manualMsg
  | mirrorRun
  | buildToolsCheck
deriving DecidableEq, Repr

structure InstallEnv where
  files : List String
  localInstallOk : Bool
  pmOk : Bool

/-- The online fallback of `installLatestNode`: `winget` on Windows, `brew`
on macOS (a failure of either is caught and answered with a manual
download suggestion), a bare manual suggestion on Linux. -/
def onlineInstall (platform : Platform) (env : InstallEnv) : List Ev :=
  match platform with
  | .win32 => if env.pmOk then [.pmAttempt, .pmSuccess] else [.pmAttempt, .manualMsg]
  | .darwin => if env.pmOk then [.pmAttempt, .pmSuccess] else [.pmAttempt, .manualMsg]
  | .linux => [.manualMsg]

/-- `installLatestNode` of `lnode.js`.  A found local artifact is installed
silently (`msiexec` / `sudo installer`); on success the function returns at
once, on a thrown failure it falls through to the online path.  With no
artifact it goes online directly. -/
def installLatestNode (platform : Platform) (env : InstallEnv) : List Ev :=
  match findLocalInstaller platform env.files with
  | some _ =>
    match platform with
    | .win32 =>
      if env.localInstallOk then [.localAttempt, .localSuccess]
      else .localAttempt :: onlineInstall platform env
    | .darwin =>
      if env.localInstallOk then [.localAttempt, .localSuccess]
      else .localAttempt :: onlineInstall platform env
    | .linux => onlineInstall platform env
  | none => onlineInstall platform env

/-- npm configuration state read and written through `npm config`. -/
structure NpmState where
  registry : String
deriving DecidableEq, Repr

/-- Whether the `npm config get` / `npm config set` invocations succeed
(an `execSync` throw lands in the surrounding `catch`). -/
structure MirrorEnv where
  readOk : Bool
  writeOk : Bool
deriving DecidableEq, Repr

/-- `configureNpmMirror` of `lnode.js`: read the configured registry; write
the mirror only when it differs.  Every error is caught (non-fatal).  The
returned `Nat` counts invocations of the write command; a throwing write
leaves the state unchanged. -/
def configureNpmMirror (env : MirrorEnv) (st : NpmState) : NpmState × Nat :=
  if env.readOk then
    if st.registry ≠ CONFIG.npmRegistry then
      if env.writeOk then ({ registry := CONFIG.npmRegistry }, 1)
      else (st, 1)
    else (st, 0)
  else (st, 0)

/-- The stage sequence of `main`: version gate, conditional install chain,
mirror configuration, Windows-only build-tools check.  (`configureNpmMirror`
and `checkAndInstallBuildTools` catch their own errors, so `main` reaches
every stage.) -/
def mainTrace (platform : Platform) (version : String) (env : InstallEnv) : List Ev :=
  (if majorLtMin version CONFIG.minNodeVersion then installLatestNode platform env else [])
    ++ [.mirrorRun]
    ++ (if platform = .win32 then [.buildToolsCheck] else [])

end Lnode

namespace App

/-! ## Update orchestrator (`App.tsx`)

`checkUpdate` and `handleUpdate` call the Tauri commands
`check_openclaw_update`, `backup_user_config` and `update_openclaw` via
`invoke`.  Each call either resolves to a value or rejects; a rejection is
modelled as `Except.error` with the stringified error (`String(e)`). -/

/-- `UpdateInfo` as received from `check_openclaw_update`. -/
structure UpdateInfo where
  update_available : Bool
  current_version : Option String
  latest_version : Option String
  error : Option String
deriving DecidableEq, Repr

/-- `UpdateResult` as produced by `update_openclaw` or by the `catch` of
`handleUpdate`. -/
structure UpdateResult where
  success : Bool
  message : String
  error : Option String
deriving DecidableEq, Repr

/-- The React state of `App` touched by the update flow. -/
structure AppState where
  updateInfo : Option UpdateInfo
  showUpdateBanner : Bool
  updating : Bool
  updateResult : Option UpdateResult
deriving DecidableEq, Repr

/-- Outcomes of the `invoke`d commands for one cycle, plus the `isTauri`
guard. -/
structure UpdateEnv where
  inTauri : Bool
  check : Except String UpdateInfo
  backup : Except String String
  update : Except String UpdateResult

/-- Commands actually started during an attempt. -/
inductive UEv
  | backupInvoked
  | applyInvoked
deriving DecidableEq, Repr

/-- `checkUpdate` of `App.tsx`: outside Tauri it returns at once; a rejected
`invoke` is caught and only logged; a resolved `UpdateInfo` is stored, and
the banner is raised when `update_available` holds. -/
def checkUpdate (env : UpdateEnv) (s : AppState) : AppState :=
  if env.inTauri then
    match env.check with
    | .error _ => s
    | .ok info =>
      let s := { s with updateInfo := some info }
      if info.update_available then { s with showUpdateBanner := true } else s
  else s

/-- The state `handleUpdate` establishes synchronously on entry
(`setUpdating(true); setUpdateResult(null)`); it persists while the awaited
backup and apply are in flight. -/
def midAttemptState (s : AppState) : AppState :=
  { s with updating := true, updateResult := none }

/-- `handleUpdate` of `App.tsx`: backup first, then apply; any rejection is
caught into a failure `UpdateResult` carrying `String(e)`; the `finally`
clears `updating` on every path.  (The 3-second timer that later hides the
banner after a success fires outside the handler and is not part of its
result.)  Returns the final state and the trace of commands started. -/
def handleUpdate (env : UpdateEnv) (s : AppState) : AppState × List UEv :=
  let s := midAttemptState s
  match env.backup with
  | .error e =>
    ({ s with
        updateResult := some ⟨false, "更新过程中发生错误", some e⟩
        updating := false },
      [.backupInvoked])
  | .ok _ =>
    match env.update with
    | .error e =>
      ({ s with
          updateResult := some ⟨false, "更新过程中发生错误", some e⟩
          updating := false },
        [.backupInvoked, .applyInvoked])
    | .ok r =>
      ({ s with updateResult := some r, updating := false },
        [.backupInvoked, .applyInvoked])

/-- The update button of `App.tsx` carries `disabled={updating}`: a click
while an attempt is in flight fires no handler.  This is the apply trigger
as the user can exercise it. -/
def applyTrigger (env : UpdateEnv) (s : AppState) : AppState × List UEv :=
  if s.updating then (s, []) else handleUpdate env s

end App

/-! # Theorems -/

namespace Lnode

theorem isJsSpace_of_isDigit {c : Char} (h : c.isDigit = true) : isJsSpace c = false := by
  unfold isJsSpace
  rw [decide_eq_false_iff_not]
  rintro (rfl | rfl | rfl | rfl) <;> exact absurd h (by decide)

theorem ne_dash_of_isDigit {c : Char} (h : c.isDigit = true) : c ≠ '-' := by
  rintro rfl; exact absurd h (by decide)

theorem ne_plus_of_isDigit {c : Char} (h : c.isDigit = true) : c ≠ '+' := by
  rintro rfl; exact absurd h (by decide)

theorem takeWhile_digits_self {cs : List Char} (hall : cs.all Char.isDigit = true) :
    cs.takeWhile Char.isDigit = cs := by
  induction cs with
  | nil => rfl
  | cons c t ih =>
    simp only [List.all_cons, Bool.and_eq_true] at hall
    simp [List.takeWhile_cons, hall.1, ih hall.2]

theorem digitsVal_of_digits {cs : List Char} (hne : cs ≠ []) (hall : cs.all Char.isDigit = true) :
    digitsVal cs = some (cs.foldl (fun acc c => acc * 10 + (c.toNat - 48)) 0) := by
  unfold digitsVal
  rw [takeWhile_digits_self hall]
  simp [hne]

theorem parseIntChars_of_digits {cs : List Char} (hne : cs ≠ [])
    (hall : cs.all Char.isDigit = true) :
    parseIntChars cs
      = some (Int.ofNat (cs.foldl (fun acc c => acc * 10 + (c.toNat - 48)) 0)) := by
  cases cs with
  | nil => exact absurd rfl hne
  | cons c t =>
    simp only [List.all_cons, Bool.and_eq_true] at hall
    have hs := isJsSpace_of_isDigit hall.1
    unfold parseIntChars
    rw [List.dropWhile_cons, hs]
    simp only [Bool.false_eq_true, if_false]
    rw [if_neg (ne_dash_of_isDigit hall.1), if_neg (ne_plus_of_isDigit hall.1)]
    rw [digitsVal_of_digits (by simp) (by simp [List.all_cons, hall.1, hall.2])]
    rfl

theorem decNat_spec {cs : List Char} {n : Nat} (h : decNat cs = some n) :
    cs ≠ [] ∧ cs.all Char.isDigit = true
      ∧ cs.foldl (fun acc c => acc * 10 + (c.toNat - 48)) 0 = n := by
  unfold decNat at h
  split at h
  · rename_i hcond
    exact ⟨hcond.1, hcond.2, by injection h⟩
  · exact absurd h (by simp)

theorem parseTriple_major {rest : List Char} {a b c : Nat}
    (h : parseTriple rest = some (a, b, c)) :
    decNat (rest.takeWhile (fun ch => ch ≠ '.')) = some a := by
  unfold parseTriple at h
  split at h
  · exact absurd h (by simp)
  · rename_i x hx
    rw [hx]
    have hxa : x = a := by
      split at h
      · split at h
        · exact absurd h (by simp)
        · split at h
          · rename_i r2 heq2
            rcases hm : decNat r2 with _ | z <;> rw [hm] at h <;> simp at h
            exact h.1
          · exact absurd h (by simp)
      · exact absurd h (by simp)
    rw [hxa]

theorem majorOf_parseSemVer {V : String} {a b c : Nat}
    (h : parseSemVer V = some (a, b, c)) : majorOf V = some (Int.ofNat a) := by
  unfold parseSemVer at h
  split at h
  · rename_i rest hV
    have hmaj := parseTriple_major h
    obtain ⟨hne, hall, hfold⟩ := decNat_spec hmaj
    unfold majorOf
    rw [hV]
    simp only [List.drop_succ_cons, List.drop_zero]
    rw [parseIntChars_of_digits hne hall, hfold]
  · exact absurd h (by simp)

/-- C1: for every installed-version string `V` that parses as a
`(major, minor, patch)` tuple and every configured minimum major `M`
(the code's minimum carries no minor or patch, so its tuple is `(M,0,0)`),
the runtime version gate accepts `V` iff `V`'s tuple is lexicographically
`≥` `M`'s tuple, each component compared numerically. -/
theorem versionGate_satisfies_iff_lexGe (V : String) (M : Nat) (a b c : Nat)
    (h : parseSemVer V = some (a, b, c)) :
    versionGateSatisfies V (Int.ofNat M) = true ↔ lexGe (a, b, c) (M, 0, 0) := by
  have hm := majorOf_parseSemVer h
  unfold versionGateSatisfies majorLtMin
  rw [hm]
  simp only [lexGe, Bool.not_eq_true', decide_eq_false_iff_not, Int.not_lt, Int.ofNat_eq_coe]
  omega

/-- Witness for C1 at `V = "v22.1.0"`, `M = 22`. -/
theorem versionGate_satisfies_iff_lexGe_witness :
    parseSemVer "v22.1.0" = some (22, 1, 0)
      ∧ (versionGateSatisfies "v22.1.0" (Int.ofNat 22) = true ↔ lexGe (22, 1, 0) (22, 0, 0)) :=
  ⟨by decide, versionGate_satisfies_iff_lexGe "v22.1.0" 22 22 1 0 (by decide)⟩

/-- C3 counterexample: `"vNIGHTLY"` has no parseable major version
(`majorOf` is `none`, the `NaN` case), yet the gate reports the version as
satisfying — `NaN < 22` is `false` in JS — so the bootstrap run skips the
install strategy chain (the trace is just the mirror stage) even though a
working local installer is available.  The claim says a parse failure makes
the run proceed to the install chain; it does the opposite. -/
theorem parseFailure_skips_chain_cex :
    majorOf "vNIGHTLY" = none
      ∧ versionGateSatisfies "vNIGHTLY" CONFIG.minNodeVersion = true
      ∧ mainTrace Platform.darwin "vNIGHTLY" ⟨["node-v22.1.0.pkg"], true, true⟩
          = [Ev.mirrorRun] := by
  decide

/-- C3 (amended): for every version string whose major-version parse fails,
the runtime version gate raises nothing but treats the version as
satisfying the minimum, so the bootstrap run skips the install strategy
chain entirely and proceeds to the registry mirror configurer. -/
theorem parseFailure_skips_chain (V : String) (p : Platform) (env : InstallEnv)
    (h : majorOf V = none) :
    versionGateSatisfies V CONFIG.minNodeVersion = true
      ∧ mainTrace p V env
        = Ev.mirrorRun :: (if p = Platform.win32 then [Ev.buildToolsCheck] else []) := by
  have hlt : majorLtMin V CONFIG.minNodeVersion = false := by
    unfold majorLtMin
    rw [h]
  constructor
  · unfold versionGateSatisfies
    rw [hlt]
    rfl
  · unfold mainTrace
    rw [hlt]
    simp

/-- Witness for the amended C3 at `V = "vbeta"`. -/
theorem parseFailure_skips_chain_witness :
    majorOf "vbeta" = none
      ∧ (versionGateSatisfies "vbeta" CONFIG.minNodeVersion = true
          ∧ mainTrace Platform.linux "vbeta" ⟨[], true, true⟩
            = Ev.mirrorRun
                :: (if Platform.linux = Platform.win32 then [Ev.buildToolsCheck] else [])) :=
  ⟨by decide, parseFailure_skips_chain "vbeta" Platform.linux ⟨[], true, true⟩ (by decide)⟩

theorem localSuccess_not_mem_onlineInstall (p : Platform) (env : InstallEnv) :
    Ev.localSuccess ∉ onlineInstall p env := by
  unfold onlineInstall
  cases p <;> by_cases hp : env.pmOk <;> simp [hp]

/-- C5: in every run of the install strategy chain, a successful local
artifact install is terminal — the package manager is never invoked in the
same run. -/
theorem installChain_stops_after_local_success (p : Platform) (env : InstallEnv)
    (h : Ev.localSuccess ∈ installLatestNode p env) :
    Ev.pmAttempt ∉ installLatestNode p env := by
  rcases hf : findLocalInstaller p env.files with _ | f
  · simp only [installLatestNode, hf] at h
    exact absurd h (localSuccess_not_mem_onlineInstall p env)
  · cases p with
    | win32 =>
      by_cases hl : env.localInstallOk
      · simp [installLatestNode, hf, hl]
      · simp only [installLatestNode, hf, Bool.not_eq_true] at h ⊢
        rw [Bool.not_eq_true] at hl
        rw [hl] at h ⊢
        simp only [Bool.false_eq_true, if_false, List.mem_cons] at h
        rcases h with h | h
        · exact absurd h (by simp)
        · exact absurd h (localSuccess_not_mem_onlineInstall _ env)
    | darwin =>
      by_cases hl : env.localInstallOk
      · simp [installLatestNode, hf, hl]
      · simp only [installLatestNode, hf, Bool.not_eq_true] at h ⊢
        rw [Bool.not_eq_true] at hl
        rw [hl] at h ⊢
        simp only [Bool.false_eq_true, if_false, List.mem_cons] at h
        rcases h with h | h
        · exact absurd h (by simp)
        · exact absurd h (localSuccess_not_mem_onlineInstall _ env)
    | linux =>
      simp only [installLatestNode, hf] at h
      exact absurd h (localSuccess_not_mem_onlineInstall _ env)

/-- Witness for C5: a matching local MSI whose silent install succeeds. -/
theorem installChain_stops_after_local_success_witness :
    Ev.localSuccess ∈ installLatestNode Platform.win32 ⟨["node-v22.1.0-x64.msi"], true, true⟩
      ∧ Ev.pmAttempt ∉ installLatestNode Platform.win32 ⟨["node-v22.1.0-x64.msi"], true, true⟩ :=
  ⟨by decide,
    installChain_stops_after_local_success Platform.win32
      ⟨["node-v22.1.0-x64.msi"], true, true⟩ (by decide)⟩

/-- C6: when its own reads and writes go through, the registry mirror
configurer is idempotent — two consecutive invocations perform at most one
write, and the second invocation is a no-op (same state, zero writes). -/
theorem configureNpmMirror_idem (st : NpmState) (env₁ env₂ : MirrorEnv)
    (h₁ : env₁.readOk = true) (h₂ : env₁.writeOk = true) (h₃ : env₂.readOk = true) :
    (configureNpmMirror env₁ st).2
        + (configureNpmMirror env₂ (configureNpmMirror env₁ st).1).2 ≤ 1
      ∧ configureNpmMirror env₂ (configureNpmMirror env₁ st).1
        = ((configureNpmMirror env₁ st).1, 0) := by
  by_cases hr : st.registry = CONFIG.npmRegistry
  · simp [configureNpmMirror, h₁, h₂, h₃, hr]
  · simp [configureNpmMirror, h₁, h₂, h₃, hr]

/-- Witness for C6 starting from the default npm registry. -/
theorem configureNpmMirror_idem_witness :
    (configureNpmMirror ⟨true, true⟩ ⟨"https://registry.npmjs.org"⟩).2
        + (configureNpmMirror ⟨true, true⟩
            (configureNpmMirror ⟨true, true⟩ ⟨"https://registry.npmjs.org"⟩).1).2 ≤ 1
      ∧ configureNpmMirror ⟨true, true⟩
            (configureNpmMirror ⟨true, true⟩ ⟨"https://registry.npmjs.org"⟩).1
        = ((configureNpmMirror ⟨true, true⟩ ⟨"https://registry.npmjs.org"⟩).1, 0) :=
  configureNpmMirror_idem ⟨"https://registry.npmjs.org"⟩ ⟨true, true⟩ ⟨true, true⟩ rfl rfl rfl

/-- C7: whenever the installed version satisfies the minimum, the bootstrap
run attempts no install candidate and its next stage is the registry mirror
configurer. -/
theorem versionGate_sole_trigger (p : Platform) (ver : String) (env : InstallEnv)
    (h : versionGateSatisfies ver CONFIG.minNodeVersion = true) :
    Ev.localAttempt ∉ mainTrace p ver env
      ∧ Ev.pmAttempt ∉ mainTrace p ver env
      ∧ (mainTrace p ver env).head? = some Ev.mirrorRun := by
  have hlt : majorLtMin ver CONFIG.minNodeVersion = false := by
    unfold versionGateSatisfies at h
    simpa using h
  unfold mainTrace
  rw [hlt]
  by_cases hp : p = Platform.win32 <;> simp [hp]

/-- Witness for C7 at installed version `"v22.5.1"`. -/
theorem versionGate_sole_trigger_witness :
    versionGateSatisfies "v22.5.1" CONFIG.minNodeVersion = true
      ∧ (Ev.localAttempt ∉ mainTrace Platform.darwin "v22.5.1" ⟨["node-v22.pkg"], true, true⟩
          ∧ Ev.pmAttempt ∉ mainTrace Platform.darwin "v22.5.1" ⟨["node-v22.pkg"], true, true⟩
          ∧ (mainTrace Platform.darwin "v22.5.1" ⟨["node-v22.pkg"], true, true⟩).head?
              = some Ev.mirrorRun) :=
  ⟨by decide,
    versionGate_sole_trigger Platform.darwin "v22.5.1" ⟨["node-v22.pkg"], true, true⟩
      (by decide)⟩

end Lnode

namespace App

/-- C2: in every execution of an update attempt, the apply step is started
only if the configuration backup resolved successfully, and then the trace
is exactly backup first, apply second. -/
theorem handleUpdate_backup_before_apply (env : UpdateEnv) (s : AppState)
    (h : UEv.applyInvoked ∈ (handleUpdate env s).2) :
    (∃ m, env.backup = Except.ok m)
      ∧ (handleUpdate env s).2 = [UEv.backupInvoked, UEv.applyInvoked] := by
  rcases hb : env.backup with e | m
  · simp [handleUpdate, hb] at h
  · rcases hu : env.update with e' | r <;>
      exact ⟨⟨m, rfl⟩, by simp [handleUpdate, hb, hu]⟩

/-- Witness for C2: both backup and apply resolve. -/
theorem handleUpdate_backup_before_apply_witness :
    UEv.applyInvoked
        ∈ (handleUpdate ⟨true, Except.error "unused", Except.ok "backed up",
            Except.ok ⟨true, "updated", none⟩⟩ ⟨none, false, false, none⟩).2
      ∧ ((∃ m, (⟨true, Except.error "unused", Except.ok "backed up",
            Except.ok ⟨true, "updated", none⟩⟩ : UpdateEnv).backup = Except.ok m)
          ∧ (handleUpdate ⟨true, Except.error "unused", Except.ok "backed up",
              Except.ok ⟨true, "updated", none⟩⟩ ⟨none, false, false, none⟩).2
            = [UEv.backupInvoked, UEv.applyInvoked]) :=
  ⟨by decide,
    handleUpdate_backup_before_apply
      ⟨true, Except.error "unused", Except.ok "backed up", Except.ok ⟨true, "updated", none⟩⟩
      ⟨none, false, false, none⟩ (by decide)⟩

/-- C4: a rejected backup terminates the attempt with
`success = false` and the stringified thrown error, and the apply step is
never started in that attempt. -/
theorem handleUpdate_backup_failure (env : UpdateEnv) (s : AppState) (e : String)
    (h : env.backup = Except.error e) :
    (handleUpdate env s).1.updateResult = some ⟨false, "更新过程中发生错误", some e⟩
      ∧ UEv.applyInvoked ∉ (handleUpdate env s).2 := by
  simp [handleUpdate, h, midAttemptState]

/-- Witness for C4: the backup rejects with a permission error. -/
theorem handleUpdate_backup_failure_witness :
    (handleUpdate ⟨true, Except.error "unused", Except.error "EACCES: permission denied",
          Except.ok ⟨true, "updated", none⟩⟩ ⟨none, true, false, none⟩).1.updateResult
        = some ⟨false, "更新过程中发生错误", some "EACCES: permission denied"⟩
      ∧ UEv.applyInvoked
          ∉ (handleUpdate ⟨true, Except.error "unused", Except.error "EACCES: permission denied",
              Except.ok ⟨true, "updated", none⟩⟩ ⟨none, true, false, none⟩).2 :=
  handleUpdate_backup_failure
    ⟨true, Except.error "unused", Except.error "EACCES: permission denied",
      Except.ok ⟨true, "updated", none⟩⟩
    ⟨none, true, false, none⟩ "EACCES: permission denied" rfl

/-- C8: while an attempt is in flight (`updating` is set, state BackingUp or
Applying), an apply trigger is a no-op — the disabled button fires no
handler, so no second backup or apply of the same target starts. -/
theorem applyTrigger_noop_while_updating (env : UpdateEnv) (s : AppState) :
    applyTrigger env (midAttemptState s) = (midAttemptState s, []) := by
  simp [applyTrigger, midAttemptState]

/-- C9: a rejected update check leaves the whole orchestrator state
untouched, and the banner becomes visible only when it already was or the
check resolved with `update_available = true`. -/
theorem checkUpdate_failure_mutates_nothing (env : UpdateEnv) (s : AppState) :
    (∀ e, env.check = Except.error e → checkUpdate env s = s)
      ∧ ((checkUpdate env s).showUpdateBanner = true →
          s.showUpdateBanner = true
            ∨ ∃ info, env.check = Except.ok info ∧ info.update_available = true) := by
  constructor
  · intro e he
    simp [checkUpdate, he]
  · intro hb
    by_cases ht : env.inTauri
    · rcases hc : env.check with e | info
      · simp [checkUpdate, ht, hc] at hb
        left
        exact hb
      · by_cases ha : info.update_available
        · right
          exact ⟨info, rfl, ha⟩
        · simp [checkUpdate, ht, hc, ha] at hb
          left
          exact hb
    · simp [checkUpdate, ht] at hb
      left
      exact hb

/-- Witness for C9: the check rejects and the state is returned unchanged. -/
theorem checkUpdate_failure_mutates_nothing_witness :
    checkUpdate ⟨true, Except.error "network unreachable", Except.ok "",
        Except.ok ⟨true, "", none⟩⟩ ⟨none, false, false, none⟩
      = ⟨none, false, false, none⟩ :=
  (checkUpdate_failure_mutates_nothing
      ⟨true, Except.error "network unreachable", Except.ok "", Except.ok ⟨true, "", none⟩⟩
      ⟨none, false, false, none⟩).1 "network unreachable" rfl

/-- C10: `handleUpdate` ends with `updating = false` on every path —
successful apply, reported failure, rejected backup or rejected apply — so
no outcome blocks a later trigger. -/
theorem handleUpdate_clears_updating (env : UpdateEnv) (s : AppState) :
    (handleUpdate env s).1.updating = false := by
  rcases hb : env.backup with e | m
  · simp [handleUpdate, hb]
  · rcases hu : env.update with e' | r <;> simp [handleUpdate, hb, hu]

end App
